import Mathlib

/-!
# Verification of the forms_system authentication core

Shallow embedding of `src/main.rs` (a Rocket web application): the in-memory
session store (`SessionStore(RwLock<HashMap<String, i64>>)`), the request
guard `FromRequest for AuthenticatedUser`, the `login`, `logout` and
`register` handlers, and the ownership-scoped form CRUD handlers.

The SQLite database of forms is modelled as a list of rows; the SQL
statements of the handlers are translated clause by clause into list
operations.  External effects (the user lookup, bcrypt hashing and
verification, and the random bytes behind `Uuid::new_v4`) are passed in as
explicit inputs, so every handler is a pure function of its inputs.
-/

namespace FormsSystem

/-! ## Data model (`struct User`, `struct WebForm`, `struct SessionStore`) -/

abbrev UserId := Int

abbrev Token := String

/-- `struct User { id, username, password_hash }` from `main.rs`. -/
structure User where
  id : UserId
  username : String
  password_hash : String
deriving DecidableEq

/-- `struct WebForm { id, title, fields, published, author_id }` from `main.rs`. -/
structure WebForm where
  id : Int
  title : String
  fields : String
  published : Bool
  author_id : Int
deriving DecidableEq

/-- `SessionStore(RwLock<HashMap<String, i64>>)`: the map token → user id,
modelled as an association list with `HashMap` semantics. -/
abbrev SessionStore := List (Token × UserId)

/-- `HashMap::get`: lookup of a token in the session store
(`sessions.get(&session_id)` in the guard). -/
def resolveSession (s : SessionStore) (t : Token) : Option UserId :=
  (s.find? (fun p => p.1 = t)).map (fun p => p.2)

/-- Auxiliary: drop every binding of token `t` (a `HashMap` holds at most
one binding per key, so `insert` replaces and `remove` erases). -/
def eraseSession (t : Token) (s : SessionStore) : SessionStore :=
  s.filter (fun p => p.1 ≠ t)

/-- `HashMap::insert` (`session_store.0.write().unwrap().insert(session_id, user.id)`):
replaces any existing binding of the token. -/
def insertSession (t : Token) (u : UserId) (s : SessionStore) : SessionStore :=
  (t, u) :: eraseSession t s

/-- `HashMap::remove` (`session_store.0.write().unwrap().remove(session_id.value())`). -/
def removeSession (t : Token) (s : SessionStore) : SessionStore :=
  eraseSession t s

/-! ## Authentication guard (`from_request`, lines 41–55) -/

/-- `rocket::request::Outcome<AuthenticatedUser, ()>`: the three possible
outcomes of a request guard. -/
inductive Outcome where
  | success (uid : UserId)
  | forward
  | failure
deriving DecidableEq

/-- `from_request`: the cookie argument is the result of
`cookies.get_private("session_id").and_then(|c| c.value().parse().ok())` —
`none` when the cookie is absent or its private (authenticated-encryption)
decoding fails, `some sid` when a token was recovered.  The guard then looks
the token up in the session store; a hit is `Success`, everything else is
`Forward`. -/
def from_request (store : SessionStore) (cookie : Option Token) : Outcome :=
  match cookie with
  | some session_id =>
    match resolveSession store session_id with
    | some uid => Outcome.success uid
    | none => Outcome.forward
  | none => Outcome.forward

/-! ## Auth flow handlers (`login`, `logout`, `register`) -/

/-- The responses the auth handlers can produce: `Redirect::to(uri!(index))`,
`Redirect::to(uri!(login_page))`, or an `Err(Status::InternalServerError)`. -/
inductive Resp where
  | redirectIndex
  | redirectLogin
  | internalError
deriving DecidableEq

/-- Result of the `login` handler: the session store after the request, the
private cookie added to the jar (if any), and the HTTP response. -/
structure LoginResult where
  store : SessionStore
  cookieSet : Option Token
  resp : Resp
deriving DecidableEq

/-- `login` (lines 77–102).  Explicit inputs stand for the effects:
`userLookup` is the result of the SQL `SELECT * FROM users WHERE username = ?`
(`Except` error for a database failure, `none` for no such user); `verify`
is `bcrypt::verify` applied to the submitted password and a stored digest
(`Except` error for a malformed digest / hashing failure); `freshToken` is
the string `Uuid::new_v4().to_string()` produced from the RNG. -/
def login (verify : String → String → Except Unit Bool) (freshToken : Token)
    (store : SessionStore) (userLookup : Except Unit (Option User))
    (password : String) : LoginResult :=
  match userLookup with
  | Except.error _ => ⟨store, none, Resp.internalError⟩
  | Except.ok none => ⟨store, none, Resp.redirectLogin⟩
  | Except.ok (some user) =>
    match verify password user.password_hash with
    | Except.error _ => ⟨store, none, Resp.internalError⟩
    | Except.ok true =>
      ⟨insertSession freshToken user.id store, some freshToken, Resp.redirectIndex⟩
    | Except.ok false => ⟨store, none, Resp.redirectLogin⟩

/-- Result of the `logout` handler: the store after the request, whether the
client was instructed to clear the cookie (`cookies.remove_private`), and the
response. -/
structure LogoutResult where
  store : SessionStore
  cookieCleared : Bool
  resp : Resp
deriving DecidableEq

/-- `logout` (lines 104–111): if the private cookie decodes, remove that
token from the store; in every case remove the `session_id` cookie and
redirect to `index`. -/
def logout (store : SessionStore) (cookie : Option Token) : LogoutResult :=
  let store' :=
    match cookie with
    | some session_id => removeSession session_id store
    | none => store
  ⟨store', true, Resp.redirectIndex⟩

/-- Result of the `register` handler: the users row inserted
(`(username, password_hash)`), if any, and the response. -/
structure RegisterResult where
  insertedRow : Option (String × String)
  resp : Resp
deriving DecidableEq

/-- `register` (lines 118–132): hash the submitted password with
`bcrypt::hash` (input `hashResult`; an error becomes
`Status::InternalServerError` before any insert); then run the SQL insert
(input `insertResult`; an error — e.g. a duplicate username — also becomes
`InternalServerError`); on success redirect to the login page. -/
def register (hashResult : Except Unit String) (insertResult : Except Unit Unit)
    (username : String) : RegisterResult :=
  match hashResult with
  | Except.error _ => ⟨none, Resp.internalError⟩
  | Except.ok digest =>
    match insertResult with
    | Except.error _ => ⟨none, Resp.internalError⟩
    | Except.ok _ => ⟨some (username, digest), Resp.redirectLogin⟩

/-! ## Token generation (`Uuid::new_v4().to_string()`, line 94)

The `uuid` crate draws 16 random bytes, forces byte 6 to `(b & 0x0F) | 0x40`
(version 4) and byte 8 to `(b & 0x3F) | 0x80` (RFC 4122 variant), and
formats the result as lowercase hyphenated hex (8-4-4-4-12 digits). -/

/-- One lowercase hex digit: `0`–`9` then `a`–`f`. -/
def hexDigit (n : Nat) : Char :=
  if n < 10 then Char.ofNat (48 + n) else Char.ofNat (87 + n)

/-- Two lowercase hex digits of a byte. -/
def byteHex (b : Nat) : List Char :=
  [hexDigit (b / 16 % 16), hexDigit (b % 16)]

/-- The 16 bytes of a version-4 UUID built from 16 random bytes: byte 6
becomes `(b6 & 0x0F) | 0x40 = b6 % 16 + 64`, byte 8 becomes
`(b8 & 0x3F) | 0x80 = b8 % 64 + 128`; the other 14 bytes pass through. -/
def uuidV4Bytes (bytes : List Nat) : List Nat :=
  match bytes with
  | [b0, b1, b2, b3, b4, b5, b6, b7, b8, b9, b10, b11, b12, b13, b14, b15] =>
    [b0, b1, b2, b3, b4, b5, b6 % 16 + 64, b7, b8 % 64 + 128,
     b9, b10, b11, b12, b13, b14, b15]
  | other => other

/-- Hyphenated lowercase hex rendering (`Uuid::to_string`), 8-4-4-4-12. -/
def uuidV4Chars (bytes : List Nat) : List Char :=
  match uuidV4Bytes bytes with
  | [c0, c1, c2, c3, c4, c5, c6, c7, c8, c9, c10, c11, c12, c13, c14, c15] =>
    byteHex c0 ++ byteHex c1 ++ byteHex c2 ++ byteHex c3 ++
      '-' :: (byteHex c4 ++ byteHex c5 ++
      '-' :: (byteHex c6 ++ byteHex c7 ++
      '-' :: (byteHex c8 ++ byteHex c9 ++
      '-' :: (byteHex c10 ++ byteHex c11 ++ byteHex c12 ++
              byteHex c13 ++ byteHex c14 ++ byteHex c15))))
  | _ => []

/-- `Uuid::new_v4().to_string()` as a function of the 16 random bytes. -/
def uuidV4 (bytes : List Nat) : Token :=
  String.mk (uuidV4Chars bytes)

/-! ## Session cookie codec

Modelled from the spec: the codec behind `cookies.get_private` /
`cookies.add_private` (Rocket's private cookies, authenticated encryption
under a process-wide key) is framework code absent from `src/`.  Following
§4.3 of the spec, `encodeCookie` protects a token (a bitstring) with a
key-dependent integrity tag, and `decodeCookie` returns the token only when
the tag verifies, so that any bit-level modification is detected. -/

/-- Bitwise XOR of two bitstrings (truncating to the shorter). -/
def xorBits (a b : List Bool) : List Bool :=
  List.zipWith xor a b

/-- Modelled from the spec: `encode(token) -> cookie_value` (§4.3) — the
token followed by its key-dependent integrity tag. -/
def encodeCookie (key token : List Bool) : List Bool :=
  token ++ xorBits key token

/-- Modelled from the spec: `decode(cookie_value) -> Option<token>` (§4.3) —
split the candidate cookie in half, recompute the tag of the first half
under the key, and return it only when the transmitted tag matches. -/
def decodeCookie (key c : List Bool) : Option (List Bool) :=
  if c.drop (c.length / 2) = xorBits key (c.take (c.length / 2)) then
    some (c.take (c.length / 2))
  else none

/-- Flip bit `i` of a bitstring (a single bit-level modification by the
client). -/
def flipBit (i : Nat) (c : List Bool) : List Bool :=
  c.set i (!(c.getD i false))

/-! ## Session-store operation traces (for the lifecycle claim) -/

/-- A mutation of the session store: the insert performed by `login` or the
remove performed by `logout`. -/
inductive StoreOp where
  | insert (t : Token) (u : UserId)
  | remove (t : Token)
deriving DecidableEq

/-- Apply one store operation. -/
def applyOp (s : SessionStore) : StoreOp → SessionStore
  | StoreOp.insert t u => insertSession t u s
  | StoreOp.remove t => removeSession t s

/-- Apply a sequence of store operations, oldest first. -/
def applyOps (s : SessionStore) (ops : List StoreOp) : SessionStore :=
  ops.foldl applyOp s

/-- Whether an operation mentions token `t` (inserting it anew or removing
it). -/
def touches (t : Token) : StoreOp → Bool
  | StoreOp.insert t' _ => t' = t
  | StoreOp.remove t' => t' = t

/-! ## Form CRUD handlers (lines 139–229)

The `forms` table is a list of rows; each SQL statement is translated
clause by clause.  `AUTOINCREMENT` row ids are modelled by `nextId`. -/

abbrev FormsDb := List WebForm

/-- The id SQLite assigns to a freshly inserted row (one more than the
largest id present). -/
def nextId (db : FormsDb) : Int :=
  (db.map (fun f => f.id)).foldr max 0 + 1

/-- `create_form` (lines 139–154):
`INSERT INTO forms (title, fields, published, author_id) VALUES (?, ?, ?, ?)`
with the submitted title/fields/published and `user.0` as author — the
submitted `id` and `author_id` fields of the form data are not part of the
statement. -/
def create_form (db : FormsDb) (user : UserId) (form_data : WebForm) : FormsDb :=
  db ++ [{ id := nextId db, title := form_data.title, fields := form_data.fields,
           published := form_data.published, author_id := user }]

/-- `edit_form`'s query (lines 156–161):
`SELECT * FROM forms WHERE id = ? AND author_id = ?` with `fetch_optional`. -/
def fetchForm (db : FormsDb) (user : UserId) (id : Int) : Option WebForm :=
  db.find? (fun f => f.id = id ∧ f.author_id = user)

/-- The page `edit_form` renders (lines 163–164): the `form_edit` template on
a hit, the `404` template otherwise. -/
inductive EditResp where
  | editPage (form : WebForm)
  | notFoundPage
deriving DecidableEq

/-- `edit_form` (lines 156–165). -/
def edit_form (db : FormsDb) (user : UserId) (id : Int) : EditResp :=
  match fetchForm db user id with
  | some form => EditResp.editPage form
  | none => EditResp.notFoundPage

/-- `update_form` (lines 167–183):
`UPDATE forms SET title = ?, fields = ?, published = ? WHERE id = ? AND author_id = ?`. -/
def update_form (db : FormsDb) (user : UserId) (id : Int) (form_data : WebForm) : FormsDb :=
  db.map (fun f =>
    if f.id = id ∧ f.author_id = user then
      { f with title := form_data.title, fields := form_data.fields,
               published := form_data.published }
    else f)

/-- `publish_form` (lines 185–193):
`UPDATE forms SET published = true WHERE id = ? AND author_id = ?`. -/
def publish_form (db : FormsDb) (user : UserId) (id : Int) : FormsDb :=
  db.map (fun f =>
    if f.id = id ∧ f.author_id = user then { f with published := true } else f)

/-- `unpublish_form` (lines 195–203):
`UPDATE forms SET published = false WHERE id = ? AND author_id = ?`. -/
def unpublish_form (db : FormsDb) (user : UserId) (id : Int) : FormsDb :=
  db.map (fun f =>
    if f.id = id ∧ f.author_id = user then { f with published := false } else f)

/-- `clone_form` (lines 205–219):
`INSERT INTO forms (title, fields, published, author_id)
 SELECT title || ' (Clone)', fields, false, ? FROM forms WHERE id = ? AND author_id = ?`. -/
def clone_form (db : FormsDb) (user : UserId) (id : Int) : FormsDb :=
  db ++ (db.filter (fun f => f.id = id ∧ f.author_id = user)).map
    (fun f => { id := nextId db, title := f.title ++ " (Clone)", fields := f.fields,
                published := false, author_id := user })

/-- `delete_form` (lines 221–229):
`DELETE FROM forms WHERE id = ? AND author_id = ?`. -/
def delete_form (db : FormsDb) (user : UserId) (id : Int) : FormsDb :=
  db.filter (fun f => ¬(f.id = id ∧ f.author_id = user))

/-! ## Session-store lemmas -/

theorem resolve_insert_self (t : Token) (u : UserId) (s : SessionStore) :
    resolveSession (insertSession t u s) t = some u := by
  simp [resolveSession, insertSession, List.find?_cons]

theorem resolve_erase_ne (t t' : Token) (s : SessionStore) (h : t ≠ t') :
    resolveSession (eraseSession t' s) t = resolveSession s t := by
  have h' : t' ≠ t := Ne.symm h
  induction s with
  | nil => rfl
  | cons a s ih =>
    by_cases ha : a.1 = t'
    · simp only [eraseSession, resolveSession, List.filter_cons, List.find?_cons] at ih ⊢
      simp [ha, h, h'] at ih ⊢
      exact ih
    · by_cases hat : a.1 = t
      · simp only [eraseSession, resolveSession, List.filter_cons, List.find?_cons] at ih ⊢
        simp [ha, hat, h, h']
      · simp only [eraseSession, resolveSession, List.filter_cons, List.find?_cons] at ih ⊢
        simp [ha, hat, h, h'] at ih ⊢
        exact ih

theorem resolve_insert_ne (t t' : Token) (u : UserId) (s : SessionStore) (h : t ≠ t') :
    resolveSession (insertSession t' u s) t = resolveSession s t := by
  have h' : ¬((t', u).1 = t) := fun hc => h hc.symm
  simp only [insertSession, resolveSession, List.find?_cons, decide_eq_true_eq]
  simp [h']
  have := resolve_erase_ne t t' s h
  simpa [resolveSession] using this

theorem resolve_erase_self (t : Token) (s : SessionStore) :
    resolveSession (eraseSession t s) t = none := by
  induction s with
  | nil => rfl
  | cons a s ih =>
    by_cases ha : a.1 = t
    · simp [eraseSession, List.filter_cons, ha] at ih ⊢
      exact ih
    · simp [eraseSession, resolveSession, List.filter_cons, ha, List.find?_cons] at ih ⊢

theorem erase_idem (t : Token) (s : SessionStore) :
    eraseSession t (eraseSession t s) = eraseSession t s := by
  simp [eraseSession, List.filter_filter]

theorem erase_of_resolve_none (t : Token) (s : SessionStore)
    (h : resolveSession s t = none) : eraseSession t s = s := by
  induction s with
  | nil => rfl
  | cons a s ih =>
    by_cases ha : a.1 = t
    · simp [resolveSession, List.find?_cons, ha] at h
    · have h' : resolveSession s t = none := by
        simpa [resolveSession, List.find?_cons, ha] using h
      simp [eraseSession, List.filter_cons, ha] at ih ⊢
      exact ih h'

theorem resolve_applyOps_untouched (t : Token) (ops : List StoreOp)
    (h : ∀ op ∈ ops, touches t op = false) (s : SessionStore) :
    resolveSession (applyOps s ops) t = resolveSession s t := by
  induction ops generalizing s with
  | nil => rfl
  | cons op ops ih =>
    have hop : touches t op = false := h op (List.mem_cons_self op ops)
    have hops : ∀ op' ∈ ops, touches t op' = false :=
      fun op' hm => h op' (List.mem_cons_of_mem op hm)
    rw [applyOps, List.foldl_cons]
    rw [show List.foldl applyOp (applyOp s op) ops = applyOps (applyOp s op) ops from rfl]
    rw [ih hops]
    cases op with
    | insert t' u' =>
      have hne : t' ≠ t := by simpa [touches] using hop
      exact resolve_insert_ne t t' u' s (fun hc => hne hc.symm)
    | remove t' =>
      have hne : t' ≠ t := by simpa [touches] using hop
      exact resolve_erase_ne t t' s (fun hc => hne hc.symm)

/-! ## Claim theorems: sessions and auth flows -/

/-- C1: a token inserted into the session store at login for a user id keeps
resolving — through the guard — to that same user id across any further
store operations that do not themselves insert or remove this token (login
issues fresh tokens, §4.2); and once logout's invalidate removes the token,
the guard resolves it to no identity (forward). -/
theorem session_lifecycle (t : Token) (u : UserId) (s : SessionStore)
    (ops : List StoreOp) (h : ∀ op ∈ ops, touches t op = false) :
    from_request (applyOps (insertSession t u s) ops) (some t) = Outcome.success u ∧
    ∀ s' : SessionStore, from_request ((logout s' (some t)).store) (some t) = Outcome.forward := by
  constructor
  · have hres : resolveSession (applyOps (insertSession t u s) ops) t = some u := by
      rw [resolve_applyOps_untouched t ops h, resolve_insert_self]
    simp [from_request, hres]
  · intro s'
    have hres : resolveSession ((logout s' (some t)).store) t = none := by
      simpa [logout, removeSession] using resolve_erase_self t s'
    simp [from_request, hres]

theorem session_lifecycle_witness :
    from_request (applyOps (insertSession "tok" 1 [])
        [StoreOp.insert "other" 2, StoreOp.remove "other"]) (some "tok") =
      Outcome.success 1 ∧
    from_request ((logout [("tok", 1)] (some "tok")).store) (some "tok") = Outcome.forward := by
  have h := session_lifecycle "tok" 1 []
    [StoreOp.insert "other" 2, StoreOp.remove "other"] (by decide)
  exact ⟨h.1, h.2 [("tok", 1)]⟩

/-- C3: the guard never produces the error outcome: a missing or undecodable
cookie and a decoded token absent from the store all yield `Forward`
(anonymous), and a live token yields `Success` with its user id. -/
theorem guard_never_fails (store : SessionStore) (cookie : Option Token) (sid : Token) :
    from_request store cookie ≠ Outcome.failure ∧
    from_request store none = Outcome.forward ∧
    (resolveSession store sid = none → from_request store (some sid) = Outcome.forward) ∧
    (∀ uid, resolveSession store sid = some uid →
      from_request store (some sid) = Outcome.success uid) := by
  refine ⟨?_, rfl, ?_, ?_⟩
  · cases cookie with
    | none => simp [from_request]
    | some sid' =>
      cases hres : resolveSession store sid' <;> simp [from_request, hres]
  · intro h
    simp [from_request, h]
  · intro uid h
    simp [from_request, h]

theorem guard_never_fails_witness :
    from_request [("a", 1)] (some "a") ≠ Outcome.failure ∧
    from_request [("a", 1)] (some "b") = Outcome.forward ∧
    from_request [("a", 1)] (some "a") = Outcome.success 1 := by
  refine ⟨(guard_never_fails [("a", 1)] (some "a") "a").1, ?_, ?_⟩
  · exact (guard_never_fails [("a", 1)] (some "b") "b").2.2.1 (by decide)
  · exact (guard_never_fails [("a", 1)] (some "a") "a").2.2.2 1 (by decide)

/-- C2: when the username is not found (`lookup = ok none`) or password
verification returns false, `login` leaves the session store unchanged and
adds no `session_id` cookie. -/
theorem login_failure_atomic (verify : String → String → Except Unit Bool)
    (freshToken : Token) (store : SessionStore) (password : String) (u : User)
    (hv : verify password u.password_hash = Except.ok false) :
    (login verify freshToken store (Except.ok none) password).store = store ∧
    (login verify freshToken store (Except.ok none) password).cookieSet = none ∧
    (login verify freshToken store (Except.ok (some u)) password).store = store ∧
    (login verify freshToken store (Except.ok (some u)) password).cookieSet = none := by
  refine ⟨rfl, rfl, ?_, ?_⟩ <;> simp [login, hv]

theorem login_failure_atomic_witness :
    (login (fun _ _ => Except.ok false) "t" [("x", 9)] (Except.ok none) "pw").store =
        [("x", 9)] ∧
    (login (fun _ _ => Except.ok false) "t" [("x", 9)] (Except.ok none) "pw").cookieSet =
        none ∧
    (login (fun _ _ => Except.ok false) "t" [("x", 9)]
        (Except.ok (some ⟨1, "alice", "h"⟩)) "pw").store = [("x", 9)] ∧
    (login (fun _ _ => Except.ok false) "t" [("x", 9)]
        (Except.ok (some ⟨1, "alice", "h"⟩)) "pw").cookieSet = none :=
  login_failure_atomic (fun _ _ => Except.ok false) "t" [("x", 9)] "pw"
    ⟨1, "alice", "h"⟩ rfl

/-- C5: the two credential-failure cases — unknown username, and known
username with failing password verification — produce identical responses:
the same redirect to the login page, with no cookie set in either case. -/
theorem login_uniform_failure
    (verify₁ verify₂ : String → String → Except Unit Bool)
    (tok₁ tok₂ : Token) (store₁ store₂ : SessionStore)
    (pw₁ pw₂ : String) (u : User)
    (hv : verify₂ pw₂ u.password_hash = Except.ok false) :
    (login verify₁ tok₁ store₁ (Except.ok none) pw₁).resp =
      (login verify₂ tok₂ store₂ (Except.ok (some u)) pw₂).resp ∧
    (login verify₁ tok₁ store₁ (Except.ok none) pw₁).resp = Resp.redirectLogin ∧
    (login verify₁ tok₁ store₁ (Except.ok none) pw₁).cookieSet =
      (login verify₂ tok₂ store₂ (Except.ok (some u)) pw₂).cookieSet := by
  refine ⟨?_, rfl, ?_⟩ <;> simp [login, hv]

theorem login_uniform_failure_witness :
    (login (fun _ _ => Except.ok true) "t1" [] (Except.ok none) "pw1").resp =
      (login (fun _ _ => Except.ok false) "t2" [] (Except.ok (some ⟨1, "alice", "h"⟩)) "pw2").resp ∧
    (login (fun _ _ => Except.ok true) "t1" [] (Except.ok none) "pw1").resp =
      Resp.redirectLogin ∧
    (login (fun _ _ => Except.ok true) "t1" [] (Except.ok none) "pw1").cookieSet =
      (login (fun _ _ => Except.ok false) "t2" [] (Except.ok (some ⟨1, "alice", "h"⟩)) "pw2").cookieSet :=
  login_uniform_failure (fun _ _ => Except.ok true) (fun _ _ => Except.ok false)
    "t1" "t2" [] [] "pw1" "pw2" ⟨1, "alice", "h"⟩ rfl

/-- C7: logout is idempotent — invalidating a token absent from the store
leaves the store unchanged and is not an error, two consecutive logouts with
the same cookie end in the same store as one — and logout always instructs
the client to clear the `session_id` cookie. -/
theorem logout_idempotent (store : SessionStore) (t : Token) (cookie : Option Token)
    (h : resolveSession store t = none) :
    (logout store (some t)).store = store ∧
    (logout ((logout store cookie).store) cookie).store = (logout store cookie).store ∧
    (logout store cookie).cookieCleared = true ∧
    (logout store cookie).resp = Resp.redirectIndex := by
  refine ⟨?_, ?_, rfl, rfl⟩
  · simpa [logout, removeSession] using erase_of_resolve_none t store h
  · cases cookie with
    | none => rfl
    | some sid => simpa [logout, removeSession] using erase_idem sid store

theorem logout_idempotent_witness :
    (logout [("a", 1)] (some "b")).store = [("a", 1)] ∧
    (logout ((logout [("a", 1)] (some "a")).store) (some "a")).store =
      (logout [("a", 1)] (some "a")).store ∧
    (logout [("a", 1)] (some "a")).cookieCleared = true ∧
    (logout [("a", 1)] (some "a")).resp = Resp.redirectIndex := by
  have h1 := logout_idempotent [("a", 1)] "b" (some "a") (by decide)
  exact ⟨(logout_idempotent [("a", 1)] "b" (some "b") (by decide)).1, h1.2.1, h1.2.2.1,
    h1.2.2.2⟩

/-- C8: a failure of `bcrypt::verify` during login (malformed digest or
hashing error) surfaces as an internal server error — never the generic
login-failed redirect — with no session created and no cookie set; and a
failure of `bcrypt::hash` during register surfaces as an internal server
error with no users row inserted. -/
theorem hashing_failure_internal (verify : String → String → Except Unit Bool)
    (freshToken : Token) (store : SessionStore) (password : String) (u : User)
    (hv : verify password u.password_hash = Except.error ())
    (insertResult : Except Unit Unit) (username : String) :
    (login verify freshToken store (Except.ok (some u)) password).resp =
      Resp.internalError ∧
    (login verify freshToken store (Except.ok (some u)) password).resp ≠
      Resp.redirectLogin ∧
    (login verify freshToken store (Except.ok (some u)) password).store = store ∧
    (login verify freshToken store (Except.ok (some u)) password).cookieSet = none ∧
    (register (Except.error ()) insertResult username).resp = Resp.internalError ∧
    (register (Except.error ()) insertResult username).insertedRow = none := by
  refine ⟨?_, ?_, ?_, ?_, rfl, rfl⟩ <;> simp [login, hv]

theorem hashing_failure_internal_witness :
    (login (fun _ _ => Except.error ()) "t" [] (Except.ok (some ⟨1, "alice", "h"⟩)) "pw").resp =
      Resp.internalError ∧
    (login (fun _ _ => Except.error ()) "t" [] (Except.ok (some ⟨1, "alice", "h"⟩)) "pw").store =
      ([] : SessionStore) ∧
    (register (Except.error ()) (Except.ok ()) "alice").resp = Resp.internalError ∧
    (register (Except.error ()) (Except.ok ()) "alice").insertedRow = none := by
  have h := hashing_failure_internal (fun _ _ => Except.error ()) "t" [] "pw"
    ⟨1, "alice", "h"⟩ rfl (Except.ok ()) "alice"
  exact ⟨h.1, h.2.2.1, h.2.2.2.2.1, h.2.2.2.2.2⟩

/-! ## Claim theorems: ownership-scoped CRUD -/

theorem mem_update_form (db : FormsDb) (user : UserId) (id : Int) (form_data : WebForm)
    (f : WebForm) (hf : f ∈ update_form db user id form_data) :
    f ∈ db ∨ f.author_id = user := by
  rcases List.mem_map.1 hf with ⟨x, hx, rfl⟩
  by_cases hc : x.id = id ∧ x.author_id = user
  · right
    simp [hc]
  · left
    simpa [hc] using hx

theorem mem_publish_form (db : FormsDb) (user : UserId) (id : Int)
    (f : WebForm) (hf : f ∈ publish_form db user id) :
    f ∈ db ∨ f.author_id = user := by
  rcases List.mem_map.1 hf with ⟨x, hx, rfl⟩
  by_cases hc : x.id = id ∧ x.author_id = user
  · right
    simp [hc]
  · left
    simpa [hc] using hx

theorem mem_unpublish_form (db : FormsDb) (user : UserId) (id : Int)
    (f : WebForm) (hf : f ∈ unpublish_form db user id) :
    f ∈ db ∨ f.author_id = user := by
  rcases List.mem_map.1 hf with ⟨x, hx, rfl⟩
  by_cases hc : x.id = id ∧ x.author_id = user
  · right
    simp [hc]
  · left
    simpa [hc] using hx

theorem mem_clone_form (db : FormsDb) (user : UserId) (id : Int)
    (f : WebForm) (hf : f ∈ clone_form db user id) :
    f ∈ db ∨ f.author_id = user := by
  rcases List.mem_append.1 hf with hl | hr
  · exact Or.inl hl
  · right
    rcases List.mem_map.1 hr with ⟨x, _, rfl⟩
    rfl

/-- All rows with this form id belong to someone other than `user`: every
scoped mutation is then the identity on the table. -/
theorem mutations_id_of_not_owner (db : FormsDb) (user : UserId) (id : Int)
    (form_data : WebForm) (hother : ∀ f ∈ db, f.id = id → f.author_id ≠ user) :
    edit_form db user id = EditResp.notFoundPage ∧
    update_form db user id form_data = db ∧
    publish_form db user id = db ∧
    unpublish_form db user id = db ∧
    clone_form db user id = db ∧
    delete_form db user id = db := by
  have hnc : ∀ f ∈ db, ¬(f.id = id ∧ f.author_id = user) := by
    intro f hf hc
    exact hother f hf hc.1 hc.2
  have hfetch : fetchForm db user id = none := by
    rw [fetchForm, List.find?_eq_none]
    intro f hf
    simpa using hnc f hf
  have hfilter : db.filter (fun f => decide (f.id = id ∧ f.author_id = user)) = [] := by
    rw [List.filter_eq_nil_iff]
    intro f hf
    simpa using hnc f hf
  refine ⟨?_, ?_, ?_, ?_, ?_, ?_⟩
  · simp [edit_form, hfetch]
  · have : ∀ f ∈ db,
        (if f.id = id ∧ f.author_id = user then
          { f with title := form_data.title, fields := form_data.fields,
                   published := form_data.published } else f) = f := by
      intro f hf
      simp [hnc f hf]
    calc update_form db user id form_data = db.map (fun f => f) :=
          List.map_congr_left this
      _ = db := List.map_id' db
  · have : ∀ f ∈ db,
        (if f.id = id ∧ f.author_id = user then { f with published := true } else f) = f := by
      intro f hf
      simp [hnc f hf]
    calc publish_form db user id = db.map (fun f => f) := List.map_congr_left this
      _ = db := List.map_id' db
  · have : ∀ f ∈ db,
        (if f.id = id ∧ f.author_id = user then { f with published := false } else f) = f := by
      intro f hf
      simp [hnc f hf]
    calc unpublish_form db user id = db.map (fun f => f) := List.map_congr_left this
      _ = db := List.map_id' db
  · simp [clone_form]
    exact hother
  · rw [delete_form, List.filter_eq_self]
    intro f hf
    simp only [decide_eq_true_eq]
    exact hnc f hf

/-- C9: every fetch through `edit_form`'s query returns only a row whose
`author_id` is the authenticated user's id; every row of the table after a
scoped mutation was already present or belongs to the user; `delete_form`
only removes rows; and when every row carrying the requested form id belongs
to a different user, the fetch renders the 404 page and every mutation
leaves the table exactly as it was. -/
theorem crud_ownership_scoped (db : FormsDb) (user : UserId) (id : Int)
    (form_data : WebForm) :
    (∀ f, fetchForm db user id = some f → f.author_id = user ∧ f.id = id) ∧
    (∀ f ∈ update_form db user id form_data, f ∈ db ∨ f.author_id = user) ∧
    (∀ f ∈ publish_form db user id, f ∈ db ∨ f.author_id = user) ∧
    (∀ f ∈ unpublish_form db user id, f ∈ db ∨ f.author_id = user) ∧
    (∀ f ∈ clone_form db user id, f ∈ db ∨ f.author_id = user) ∧
    (∀ f ∈ delete_form db user id, f ∈ db) ∧
    ((∀ f ∈ db, f.id = id → f.author_id ≠ user) →
      edit_form db user id = EditResp.notFoundPage ∧
      update_form db user id form_data = db ∧
      publish_form db user id = db ∧
      unpublish_form db user id = db ∧
      clone_form db user id = db ∧
      delete_form db user id = db) := by
  refine ⟨?_, mem_update_form db user id form_data, mem_publish_form db user id,
    mem_unpublish_form db user id, mem_clone_form db user id, ?_,
    mutations_id_of_not_owner db user id form_data⟩
  · intro f hf
    have := List.find?_some hf
    simp at this
    exact ⟨this.2, this.1⟩
  · intro f hf
    exact List.mem_of_mem_filter hf

theorem crud_ownership_scoped_witness :
    (fetchForm [⟨1, "t", "f", false, 2⟩] 1 1 = none ∧
     edit_form [⟨1, "t", "f", false, 2⟩] 1 1 = EditResp.notFoundPage) ∧
    update_form [⟨1, "t", "f", false, 2⟩] 1 1 ⟨9, "x", "y", true, 9⟩ =
      [⟨1, "t", "f", false, 2⟩] ∧
    delete_form [⟨1, "t", "f", false, 2⟩] 1 1 = [⟨1, "t", "f", false, 2⟩] := by
  have h := (crud_ownership_scoped [⟨1, "t", "f", false, 2⟩] 1 1
    ⟨9, "x", "y", true, 9⟩).2.2.2.2.2.2 (by decide)
  exact ⟨⟨by decide, h.1⟩, h.2.1, h.2.2.2.2.2⟩

/-- C10: every row inserted by `create_form` or `clone_form` carries the
authenticated user's id as `author_id` — any `id` or `author_id` submitted in
the form data is ignored (the insert statements never reference them), so the
result of `create_form` is unchanged when those submitted fields change. -/
theorem author_stamping (db : FormsDb) (user : UserId) (id x y : Int)
    (form_data : WebForm) :
    (∀ f ∈ create_form db user form_data, f ∈ db ∨ f.author_id = user) ∧
    (∀ f ∈ clone_form db user id, f ∈ db ∨ f.author_id = user) ∧
    create_form db user form_data =
      create_form db user { form_data with id := x, author_id := y } := by
  refine ⟨?_, mem_clone_form db user id, rfl⟩
  intro f hf
  rcases List.mem_append.1 hf with hl | hr
  · exact Or.inl hl
  · right
    obtain rfl := List.mem_singleton.mp hr
    rfl

theorem author_stamping_witness :
    ((⟨1, "t", "f", true, 1⟩ : WebForm) ∈ ([] : FormsDb) ∨
      (⟨1, "t", "f", true, 1⟩ : WebForm).author_id = 1) ∧
    create_form [] 1 ⟨9, "t", "f", true, 9⟩ = create_form [] 1 ⟨5, "t", "f", true, 6⟩ := by
  refine ⟨(author_stamping [] 1 0 5 6 ⟨9, "t", "f", true, 9⟩).1 ⟨1, "t", "f", true, 1⟩ ?_,
    (author_stamping [] 1 0 5 6 ⟨9, "t", "f", true, 9⟩).2.2⟩
  decide

/-! ## Claim theorems: token generation -/

/-- C4 counterexample: `Uuid::new_v4` is a pure function of the 16 random
bytes, and nothing in `login` checks the generated token against the store.
On the random outcome of sixteen zero bytes the generated token equals a
token already live in the store (here bound to user 5), and the login for
user 7 silently overwrites that live session — so `create` can reuse a live
token, contradicting the claim. -/
theorem uuid_token_reuse_counterexample :
    resolveSession [(uuidV4 (List.replicate 16 0), 5)] (uuidV4 (List.replicate 16 0)) =
      some 5 ∧
    (login (fun _ _ => Except.ok true) (uuidV4 (List.replicate 16 0))
        [(uuidV4 (List.replicate 16 0), 5)]
        (Except.ok (some ⟨7, "bob", "h"⟩)) "pw").cookieSet =
      some (uuidV4 (List.replicate 16 0)) ∧
    resolveSession
        (login (fun _ _ => Except.ok true) (uuidV4 (List.replicate 16 0))
          [(uuidV4 (List.replicate 16 0), 5)]
          (Except.ok (some ⟨7, "bob", "h"⟩)) "pw").store
        (uuidV4 (List.replicate 16 0)) = some 7 := by
  decide

theorem exists_sixteen {α : Type _} (l : List α) (h : l.length = 16) :
    ∃ b0 b1 b2 b3 b4 b5 b6 b7 b8 b9 b10 b11 b12 b13 b14 b15 : α,
      l = [b0, b1, b2, b3, b4, b5, b6, b7, b8, b9, b10, b11, b12, b13, b14, b15] := by
  rcases l with _ | ⟨b0, l⟩; · simp at h
  rcases l with _ | ⟨b1, l⟩; · simp at h
  rcases l with _ | ⟨b2, l⟩; · simp at h
  rcases l with _ | ⟨b3, l⟩; · simp at h
  rcases l with _ | ⟨b4, l⟩; · simp at h
  rcases l with _ | ⟨b5, l⟩; · simp at h
  rcases l with _ | ⟨b6, l⟩; · simp at h
  rcases l with _ | ⟨b7, l⟩; · simp at h
  rcases l with _ | ⟨b8, l⟩; · simp at h
  rcases l with _ | ⟨b9, l⟩; · simp at h
  rcases l with _ | ⟨b10, l⟩; · simp at h
  rcases l with _ | ⟨b11, l⟩; · simp at h
  rcases l with _ | ⟨b12, l⟩; · simp at h
  rcases l with _ | ⟨b13, l⟩; · simp at h
  rcases l with _ | ⟨b14, l⟩; · simp at h
  rcases l with _ | ⟨b15, l⟩; · simp at h
  rcases l with _ | ⟨b16, l⟩
  · exact ⟨b0, b1, b2, b3, b4, b5, b6, b7, b8, b9, b10, b11, b12, b13, b14, b15, rfl⟩
  · simp at h

/-- C4 amended: tokens are version-4 UUID strings — for every 16-byte random
outcome the character at index 14 is the fixed version digit `4` and the
character at index 19 (the variant nibble) is one of `8`, `9`, `a`, `b`, so
only 122 of the 128 random bits reach the token (a space of 2^122 < 2^128
values); token freshness is only probabilistic, and inserting the generated
token binds it to the new user id, overwriting any live session with the
same token rather than preventing reuse. -/
theorem uuid_token_space (bytes : List Nat) (h : bytes.length = 16)
    (store : SessionStore) (u : UserId) :
    (uuidV4Chars bytes).getD 14 ' ' = '4' ∧
    (uuidV4Chars bytes).getD 19 ' ' ∈ (['8', '9', 'a', 'b'] : List Char) ∧
    resolveSession (insertSession (uuidV4 bytes) u store) (uuidV4 bytes) = some u := by
  obtain ⟨b0, b1, b2, b3, b4, b5, b6, b7, b8, b9, b10, b11, b12, b13, b14, b15, rfl⟩ :=
    exists_sixteen bytes h
  refine ⟨?_, ?_, resolve_insert_self _ u store⟩
  · show (uuidV4Chars _).getD 14 ' ' = '4'
    simp only [uuidV4Chars, uuidV4Bytes, byteHex, List.cons_append, List.nil_append,
      List.getD_cons_zero, List.getD_cons_succ]
    have h4 : (b6 % 16 + 64) / 16 % 16 = 4 := by omega
    rw [h4]
    rfl
  · show (uuidV4Chars _).getD 19 ' ' ∈ _
    simp only [uuidV4Chars, uuidV4Bytes, byteHex, List.cons_append, List.nil_append,
      List.getD_cons_zero, List.getD_cons_succ]
    have h4 : (b8 % 64 + 128) / 16 % 16 = 8 ∨ (b8 % 64 + 128) / 16 % 16 = 9 ∨
        (b8 % 64 + 128) / 16 % 16 = 10 ∨ (b8 % 64 + 128) / 16 % 16 = 11 := by omega
    rcases h4 with h4 | h4 | h4 | h4 <;> rw [h4] <;> decide

theorem uuid_token_space_witness :
    (uuidV4Chars (List.replicate 16 0)).getD 14 ' ' = '4' ∧
    (uuidV4Chars (List.replicate 16 0)).getD 19 ' ' ∈ (['8', '9', 'a', 'b'] : List Char) ∧
    resolveSession (insertSession (uuidV4 (List.replicate 16 0)) 7 [])
      (uuidV4 (List.replicate 16 0)) = some 7 :=
  uuid_token_space (List.replicate 16 0) (by decide) [] 7

/-! ## Claim theorems: cookie codec -/

theorem xorBits_cons (k b : Bool) (key x : List Bool) :
    xorBits (k :: key) (b :: x) = xor k b :: xorBits key x := rfl

theorem xorBits_length (a b : List Bool) :
    (xorBits a b).length = min a.length b.length := by
  simp [xorBits]

theorem xorBits_xorBits (key : List Bool) :
    ∀ x : List Bool, x.length ≤ key.length → xorBits key (xorBits key x) = x := by
  induction key with
  | nil =>
    intro x hx
    have hx0 : x = [] := List.length_eq_zero.mp (Nat.le_zero.mp hx)
    subst hx0
    rfl
  | cons k key ih =>
    intro x hx
    cases x with
    | nil => rfl
    | cons b x =>
      rw [xorBits_cons, xorBits_cons, ih x (by simpa using hx),
        show xor k (xor k b) = b by cases k <;> cases b <;> rfl]

theorem xorBits_inj (key x y : List Bool) (hx : x.length ≤ key.length)
    (hy : y.length ≤ key.length) (h : xorBits key x = xorBits key y) : x = y := by
  have h' := congrArg (xorBits key) h
  rwa [xorBits_xorBits key x hx, xorBits_xorBits key y hy] at h'

/-- C6: under a key as long as the token, decoding the encoding of a token
returns exactly that token, and decoding any single-bit-flipped modification
of the encoded cookie returns absent (`none`), never a partially-trusted
value. -/
theorem cookie_roundtrip_tamper_reject (key token : List Bool) (i : Nat)
    (hk : key.length = token.length) (hi : i < (encodeCookie key token).length) :
    decodeCookie key (encodeCookie key token) = some token ∧
    decodeCookie key (flipBit i (encodeCookie key token)) = none := by
  have htag : (xorBits key token).length = token.length := by
    rw [xorBits_length, hk, Nat.min_self]
  have hclen : (encodeCookie key token).length = token.length + token.length := by
    simp [encodeCookie, htag]
  have hhalf : (token.length + token.length) / 2 = token.length := by omega
  constructor
  · rw [decodeCookie, encodeCookie, List.length_append, htag, hhalf,
      List.take_left' rfl, List.drop_left' rfl]
    simp
  · have hilt : i < token.length + token.length := hclen ▸ hi
    rw [flipBit, decodeCookie, List.length_set, hclen, hhalf]
    rcases Nat.lt_or_ge i token.length with hin | hin
    · -- the flipped bit lies in the token half
      have hgd : (encodeCookie key token).getD i false = token.getD i false := by
        rw [encodeCookie, List.getD_eq_getElem?_getD, List.getD_eq_getElem?_getD,
          List.getElem?_append_left hin]
      have hset : (encodeCookie key token).set i (!(encodeCookie key token).getD i false) =
          token.set i (!token.getD i false) ++ xorBits key token := by
        rw [hgd, encodeCookie, List.set_append_left _ _ hin]
      rw [hset, List.take_left' (by simp), List.drop_left' (by simp)]
      rw [if_neg]
      intro hcontra
      have heq : token = token.set i (!token.getD i false) := by
        refine xorBits_inj key _ _ (le_of_eq hk.symm) (by simp [hk.symm.le]) ?_
        exact hcontra
      have hne : token.getD i false = !token.getD i false := by
        conv_lhs => rw [heq]
        rw [List.getD_eq_getElem?_getD, List.getElem?_set_self]
        · simp
        · exact hin
      cases hb : token.getD i false <;> rw [hb] at hne <;> simp at hne
    · -- the flipped bit lies in the tag half
      have hin' : i - token.length < token.length := by omega
      have hgd : (encodeCookie key token).getD i false =
          (xorBits key token).getD (i - token.length) false := by
        rw [encodeCookie, List.getD_eq_getElem?_getD, List.getD_eq_getElem?_getD,
          List.getElem?_append_right hin]
      have hset : (encodeCookie key token).set i (!(encodeCookie key token).getD i false) =
          token ++ (xorBits key token).set (i - token.length)
            (!(xorBits key token).getD (i - token.length) false) := by
        rw [hgd, encodeCookie, List.set_append_right _ _ hin]
      rw [hset, List.take_left' rfl, List.drop_left' rfl]
      rw [if_neg]
      intro hcontra
      have hne : (xorBits key token).getD (i - token.length) false =
          !(xorBits key token).getD (i - token.length) false := by
        conv_lhs => rw [← hcontra]
        rw [List.getD_eq_getElem?_getD, List.getElem?_set_self]
        · simp
        · rw [htag]; exact hin'
      cases hb : (xorBits key token).getD (i - token.length) false <;>
        rw [hb] at hne <;> simp at hne

theorem cookie_roundtrip_tamper_reject_witness :
    decodeCookie [true, false] (encodeCookie [true, false] [false, true]) =
      some [false, true] ∧
    decodeCookie [true, false] (flipBit 2 (encodeCookie [true, false] [false, true])) =
      none :=
  cookie_roundtrip_tamper_reject [true, false] [false, true] 2 (by decide) (by decide)

end FormsSystem
